import Mathlib

/-!
Verification of the preset-store logic of `spring_tool` (`spring_tool/presets.py`).

The preset store is a two-level mapping `{character → {body_part → record}}`
persisted in a single JSON file.  Python dicts are modelled as association
lists with insertion-order semantics (`dget` / `dset` / `ddel` mirror
`d[k]`, `d[k] = v`, `del d[k]` / `d.pop(k)`); the file is modelled by
`FileState` (no path set, file missing, or file present with a parsed
store).  Floats are modelled by `ℚ` (the code only stores and retrieves
them, never computes), and heterogeneous Python values occurring in the
`position` field by `PyVal`, which distinguishes lists from tuples because
`get_all_data` re-wraps the position as a list holding one tuple.
-/

namespace SpringTool

/-- A Python dict with string keys, as an insertion-ordered association list. -/
abbrev Dict (α : Type) : Type := List (String × α)

/-- `d.get(k)`: first binding of `k`, if any. -/
def dget {α : Type} : Dict α → String → Option α
  | [], _ => none
  | (k, v) :: rest, key => if k = key then some v else dget rest key

/-- `d[k] = v`: replace the binding in place if `k` is present, else append. -/
def dset {α : Type} : Dict α → String → α → Dict α
  | [], key, v => [(key, v)]
  | (k, w) :: rest, key, v =>
      if k = key then (key, v) :: rest else (k, w) :: dset rest key v

/-- `del d[k]` / `d.pop(k)`: drop the first binding of `k`. -/
def ddel {α : Type} : Dict α → String → Dict α
  | [], _ => []
  | (k, w) :: rest, key => if k = key then rest else (k, w) :: ddel rest key

/-- `k in d`. -/
def dcontains {α : Type} (d : Dict α) (k : String) : Bool :=
  (dget d k).isSome

/-- `list(d.keys())`. -/
def dkeys {α : Type} (d : Dict α) : List String :=
  d.map Prod.fst

/-- A genuine Python dict never binds a key twice. -/
def keysNodup {α : Type} (d : Dict α) : Prop :=
  (dkeys d).Nodup

instance {α : Type} (d : Dict α) : Decidable (keysNodup d) := by
  unfold keysNodup; infer_instance

/-- Python values that can appear in the `position` field: numbers, strings,
lists and tuples (the code stores a list `[x, y, z]` and `get_all_data`
returns a list holding one tuple). -/
inductive PyVal : Type where
  | num : ℚ → PyVal
  | str : String → PyVal
  | list : List PyVal → PyVal
  | tuple : List PyVal → PyVal

/-- Python truthiness of a `PyVal` (`if pos_data`). -/
def pyTruthy : PyVal → Bool
  | .num q => q != 0
  | .str s => s ≠ ""
  | .list vs => !vs.isEmpty
  | .tuple vs => !vs.isEmpty

/-- Python subscription `v[i]`: defined on lists, tuples and strings,
`none` means the interpreter raises (IndexError / TypeError). -/
def pyIndex : PyVal → Nat → Option PyVal
  | .list vs, i => vs.get? i
  | .tuple vs, i => vs.get? i
  | .str s, i => (s.data.get? i).map (fun c => .str (String.mk [c]))
  | _, _ => none

/-- One preset record: the dict written by `save_preset`, with keys
`spring_mode`, `spring_value`, `spring_rigidity`, `decay`, `position`;
`none` models an absent key. -/
structure Preset : Type where
  spring_mode : Option String := none
  spring_value : Option ℚ := none
  spring_rigidity : Option ℚ := none
  decay : Option ℚ := none
  position : Option PyVal := none

/-- `not body_part_data`: the record dict is empty. -/
def Preset.isEmpty (p : Preset) : Bool :=
  p.spring_mode.isNone && p.spring_value.isNone && p.spring_rigidity.isNone
    && p.decay.isNone && p.position.isNone

/-- The whole store: `{character → {body_part → record}}`. -/
abbrev Store : Type := Dict (Dict Preset)

/-- The preset file as `load_presets` can observe it: the `path` argument is
falsy, or the path is set but the file does not exist, or the file exists
and parses to a store. -/
inductive FileState : Type where
  | noPath : FileState
  | missing : FileState
  | content : Store → FileState

/-- `load_presets(path)`: `None` if the path is falsy, `{}` if the file is
missing (`FileNotFoundError`), else the parsed JSON document. -/
def load_presets : FileState → Option Store
  | .noPath => none
  | .missing => some []
  | .content s => some s

/-- `get_preset(path, character_name, body_part)`. -/
def get_preset (fs : FileState) (character_name body_part : String) :
    Option Preset :=
  match load_presets fs with
  | none => none
  | some presets =>
      if presets.isEmpty then none
      else ((dget presets character_name).getD []) |> (dget · body_part)

/-- `get_available_characters(path)`: `None` when `load_presets` gives a
falsy value (`None` or `{}`), else the key list. -/
def get_available_characters (fs : FileState) : Option (List String) :=
  match load_presets fs with
  | none => none
  | some presets =>
      if presets.isEmpty then none else some (dkeys presets)

/-- `get_available_body_parts(path, character_name)`. -/
def get_available_body_parts (fs : FileState) (character_name : String) :
    Option (List String) :=
  match load_presets fs with
  | none => none
  | some presets =>
      if presets.isEmpty then none
      else some (dkeys ((dget presets character_name).getD []))

/-- The five-tuple returned by `get_all_data`. -/
abbrev AllData : Type :=
  Option String × Option ℚ × Option ℚ × Option ℚ × Option PyVal

/-- `get_all_data(path, character_name, body_part)`.  The outer `Option` is
`none` when the position extraction `pos_data[0] … pos_data[2]` would raise
(IndexError / TypeError); every normal return is `some`. -/
def get_all_data (fs : FileState) (character_name body_part : String) :
    Option AllData :=
  match load_presets fs with
  | none => some (none, none, none, none, none)
  | some presets =>
    if presets.isEmpty then some (none, none, none, none, none) else
    match dget presets character_name with
    | none => some (none, none, none, none, none)
    | some character_data =>
      if character_data.isEmpty then some (none, none, none, none, none) else
      match dget character_data body_part with
      | none => some (none, none, none, none, none)
      | some body_part_data =>
        if body_part_data.isEmpty then some (none, none, none, none, none) else
        match body_part_data.position with
        | none =>
            some (body_part_data.spring_mode, body_part_data.spring_value,
              body_part_data.spring_rigidity, body_part_data.decay, none)
        | some pos_data =>
            if pyTruthy pos_data then
              match pyIndex pos_data 0, pyIndex pos_data 1,
                  pyIndex pos_data 2 with
              | some a, some b, some c =>
                  some (body_part_data.spring_mode, body_part_data.spring_value,
                    body_part_data.spring_rigidity, body_part_data.decay,
                    some (.list [.tuple [a, b, c]]))
              | _, _, _ => none
            else
              some (body_part_data.spring_mode, body_part_data.spring_value,
                body_part_data.spring_rigidity, body_part_data.decay, none)

/-- The exceptions `save_preset` can raise: `TypeError` from
`character_name not in presets` when `load_presets` returned `None`
(falsy path), and the duplicate-name `ValueError`. -/
inductive SaveError : Type where
  | typeError : SaveError
  | valueError : (body_part : String) → (character_name : String) → SaveError

/-- `if x is not None: field = x` on one record field. -/
def updateField {α : Type} (arg : Option α) (old : Option α) : Option α :=
  match arg with
  | some v => some v
  | none => old

/-- The five `if … is not None: preset[…] = …` statements of `save_preset`. -/
def applyUpdates (p : Preset) (spring_mode : Option String)
    (spring spring_rigidity decay : Option ℚ) (position : Option PyVal) :
    Preset :=
  { spring_mode := updateField spring_mode p.spring_mode
    spring_value := updateField spring p.spring_value
    spring_rigidity := updateField spring_rigidity p.spring_rigidity
    decay := updateField decay p.decay
    position := updateField position p.position }

/-- `save_preset(path, character_name, body_part, spring_mode, spring,
spring_rigidity, decay, position, overwrite)`: raises on a falsy path or a
duplicate `(character_name, body_part)` without `overwrite`; otherwise
updates the supplied fields of the (existing or fresh) record and rewrites
the whole file. -/
def save_preset (fs : FileState) (character_name body_part : String)
    (spring_mode : Option String := none) (spring : Option ℚ := none)
    (spring_rigidity : Option ℚ := none) (decay : Option ℚ := none)
    (position : Option PyVal := none) (overwrite : Bool := false) :
    Except SaveError FileState :=
  match load_presets fs with
  | none => .error .typeError
  | some presets0 =>
    let presets :=
      if dcontains presets0 character_name then presets0
      else dset presets0 character_name []
    let character_data := (dget presets character_name).getD []
    if dcontains character_data body_part && !overwrite then
      .error (.valueError body_part character_name)
    else
      let preset0 := (dget character_data body_part).getD {}
      let preset : Preset :=
        applyUpdates preset0 spring_mode spring spring_rigidity decay position
      .ok (.content
        (dset presets character_name (dset character_data body_part preset)))

/-- `remove_preset(path, character_name, body_part)`: returns the boolean
result together with the file state after the call (unchanged on every
`False` branch, rewritten on success). -/
def remove_preset (fs : FileState) (character_name : String)
    (body_part : Option String := none) : Bool × FileState :=
  match load_presets fs with
  | none => (false, fs)
  | some presets =>
    if presets.isEmpty || !dcontains presets character_name then (false, fs)
    else
      match body_part with
      | none => (true, .content (ddel presets character_name))
      | some bp =>
        let character_data := (dget presets character_name).getD []
        if dcontains character_data bp then
          let remaining := ddel character_data bp
          if remaining.isEmpty then
            (true, .content (ddel presets character_name))
          else
            (true, .content (dset presets character_name remaining))
        else (false, fs)

/-- `json_data[new_key] = json_data.pop(old_key)` guarded by
`old_key in json_data`, on one dict level. -/
def renameFlat {α : Type} (d : Dict α) (old_key new_key : String) : Dict α :=
  match dget d old_key with
  | some v => dset (ddel d old_key) new_key v
  | none => d

/-- `rename_key(json_data, old_key, new_key, parent_text)`: renames at the
top level when `parent_text` is `None`, else inside
`json_data[parent_text]`; silently returns the data unchanged when the
addressed key is absent. -/
def rename_key (json_data : Store) (old_key new_key : String)
    (parent_text : Option String := none) : Store :=
  match parent_text with
  | none => renameFlat json_data old_key new_key
  | some parent =>
    match dget json_data parent with
    | none => json_data
    | some inner =>
      if dcontains inner old_key then
        dset json_data parent (renameFlat inner old_key new_key)
      else json_data

/-- The placeholder line of the character combo box. -/
def EMPTY_LINE_TEXT : String := "----------"

/-- Python `str.lower()`, character-wise. -/
def strLower (s : String) : String :=
  String.mk (s.data.map Char.toLower)

/-- What pressing Confirm in the save popup did: a warning dialog (no
write), an uncaught exception out of `save_preset`, or a completed save. -/
inductive PressOutcome : Type where
  | warnInvalidName : PressOutcome
  | warnNameTaken : PressOutcome
  | raised : SaveError → PressOutcome
  | saved : PressOutcome

/-- `SavePresetPopup.save_preset_pressed`, with the widget reads abstracted
into arguments: `character_name` and `body_part` are the combo-box and
line-edit texts, `edit_mode` the popup mode, `rotation_checked` the radio
state, and the five spinbox values follow.  Returns the outcome and the
file state afterwards. -/
def save_preset_pressed (fs : FileState) (character_name body_part : String)
    (edit_mode rotation_checked : Bool) (spring rigidity decay : ℚ)
    (position_x position_y position_z : ℚ) : PressOutcome × FileState :=
  if character_name = EMPTY_LINE_TEXT then (.warnInvalidName, fs)
  else
    let saved_names := get_available_body_parts fs character_name
    let nameTaken :=
      match saved_names with
      | none => false
      | some names =>
          !names.isEmpty && !edit_mode
            && (names.map strLower).contains (strLower body_part)
    if nameTaken then (.warnNameTaken, fs)
    else
      let spring_mode := if rotation_checked then "rotation" else "translation"
      match save_preset fs character_name body_part (some spring_mode)
          (some spring) (some rigidity) (some decay)
          (some (.list [.num position_x, .num position_y, .num position_z]))
          edit_mode with
      | .ok fs1 => (.saved, fs1)
      | .error e => (.raised e, fs)

/-- Whether the store behind `fs` holds a record at
`(character_name, body_part)`. -/
def storeHasPreset (fs : FileState) (character_name body_part : String) :
    Bool :=
  match load_presets fs with
  | none => false
  | some presets =>
    match dget presets character_name with
    | none => false
    | some character_data => dcontains character_data body_part

/-! ### Association-list lemmas -/

theorem dget_dset_self {α : Type} (d : Dict α) (k : String) (v : α) :
    dget (dset d k v) k = some v := by
  induction d with
  | nil => simp [dget, dset]
  | cons hd tl ih =>
    obtain ⟨k', w⟩ := hd
    by_cases h : k' = k
    · simp [dset, h, dget]
    · simp [dset, h, dget, ih]

theorem dget_dset_ne {α : Type} (d : Dict α) (k key : String) (v : α)
    (h : k ≠ key) : dget (dset d k v) key = dget d key := by
  induction d with
  | nil => simp [dget, dset, h]
  | cons hd tl ih =>
    obtain ⟨k', w⟩ := hd
    by_cases h' : k' = k
    · subst h'; simp [dset, dget, h]
    · simp only [dset, if_neg h', dget, ih]

theorem dget_ddel_ne {α : Type} (d : Dict α) (k key : String)
    (h : k ≠ key) : dget (ddel d k) key = dget d key := by
  induction d with
  | nil => simp [ddel]
  | cons hd tl ih =>
    obtain ⟨k', w⟩ := hd
    by_cases h' : k' = k
    · subst h'; simp [ddel, dget, h]
    · simp only [ddel, if_neg h', dget, ih]

theorem dget_eq_none_of_not_mem {α : Type} (d : Dict α) (k : String)
    (h : k ∉ dkeys d) : dget d k = none := by
  induction d with
  | nil => rfl
  | cons hd tl ih =>
    obtain ⟨k', w⟩ := hd
    simp only [dkeys, List.map_cons, List.mem_cons, not_or] at h
    simp only [dget, if_neg (Ne.symm h.1), ih h.2]

theorem dget_ddel_self {α : Type} (d : Dict α) (k : String)
    (h : keysNodup d) : dget (ddel d k) k = none := by
  induction d with
  | nil => rfl
  | cons hd tl ih =>
    obtain ⟨k', w⟩ := hd
    simp only [keysNodup, dkeys, List.map_cons, List.nodup_cons] at h
    by_cases h' : k' = k
    · subst h'
      simp only [ddel, if_pos rfl]
      exact dget_eq_none_of_not_mem tl k' h.1
    · simp only [ddel, if_neg h', dget, if_neg h', ih h.2]

theorem dset_isEmpty_false {α : Type} (d : Dict α) (k : String) (v : α) :
    (dset d k v).isEmpty = false := by
  cases d with
  | nil => rfl
  | cons hd tl =>
    obtain ⟨k', w⟩ := hd
    by_cases h : k' = k <;> simp [dset, h]

theorem isEmpty_false_of_dget_some {α : Type} (d : Dict α) (k : String)
    (v : α) (h : dget d k = some v) : d.isEmpty = false := by
  cases d with
  | nil => simp [dget] at h
  | cons hd tl => rfl

theorem dcontains_true_of_dget_some {α : Type} (d : Dict α) (k : String)
    (v : α) (h : dget d k = some v) : dcontains d k = true := by
  simp [dcontains, h]

theorem renameFlat_spec {α : Type} (d : Dict α) (old_key new_key : String)
    (v : α) (hne : old_key ≠ new_key) (hv : dget d old_key = some v)
    (hnd : keysNodup d) :
    dget (renameFlat d old_key new_key) new_key = some v ∧
    dget (renameFlat d old_key new_key) old_key = none ∧
    ∀ k, k ≠ old_key → k ≠ new_key →
      dget (renameFlat d old_key new_key) k = dget d k := by
  unfold renameFlat
  rw [hv]
  refine ⟨dget_dset_self _ _ _, ?_, ?_⟩
  · rw [dget_dset_ne _ _ _ _ (Ne.symm hne)]
    exact dget_ddel_self d old_key hnd
  · intro k hko hkn
    rw [dget_dset_ne _ _ _ _ (Ne.symm hkn)]
    exact dget_ddel_ne _ _ _ (Ne.symm hko)

/-! ### The claims -/

/-- C2 (corrected).  `get_available_characters` / `get_available_body_parts`
return `None` not only when the store is absent (falsy path or missing
file) but also when the file is present and holds the empty store `{}`:
the absent-store case and the present-but-empty case are therefore NOT
distinguishable from the return value. -/
theorem available_none_iff_absent_or_empty (fs : FileState) (c : String) :
    (get_available_characters fs = none ↔
      fs = .noPath ∨ fs = .missing ∨ fs = .content []) ∧
    (get_available_body_parts fs c = none ↔
      fs = .noPath ∨ fs = .missing ∨ fs = .content []) := by
  cases fs with
  | noPath =>
      simp [get_available_characters, get_available_body_parts, load_presets]
  | missing =>
      simp [get_available_characters, get_available_body_parts, load_presets]
  | content s =>
      cases s with
      | nil =>
          simp [get_available_characters, get_available_body_parts,
            load_presets]
      | cons hd tl =>
          simp [get_available_characters, get_available_body_parts,
            load_presets]

/-- C2, counterexample to the claim as stated: a present file holding the
empty store `{}` makes `get_available_characters` return `None`, not an
empty listing, so the caller cannot tell it apart from an absent store. -/
theorem available_characters_empty_store_cex :
    get_available_characters (.content []) = none ∧
    get_available_characters (.content []) ≠ some [] ∧
    FileState.content [] ≠ .noPath ∧ FileState.content [] ≠ .missing :=
  ⟨rfl, fun h => Option.noConfusion h, fun h => FileState.noConfusion h,
    fun h => FileState.noConfusion h⟩

/-- C1 (corrected).  Round-trip: whenever `save_preset` succeeds with all
five fields supplied and the position given as the 3-component list
`[x, y, z]`, `get_all_data` returns exactly the saved `spring_mode`,
spring value, rigidity and decay — but the position comes back re-wrapped
as a one-element list holding the 3-tuple `(x, y, z)`, not in the list
form it was saved. -/
theorem save_get_all_data_round_trip (fs : FileState) (c b mode : String)
    (sv rg dc x y z : ℚ) (ow : Bool) (fs1 : FileState)
    (h : save_preset fs c b (some mode) (some sv) (some rg) (some dc)
      (some (.list [.num x, .num y, .num z])) ow = .ok fs1) :
    get_all_data fs1 c b =
      some (some mode, some sv, some rg, some dc,
        some (.list [.tuple [.num x, .num y, .num z]])) := by
  unfold save_preset at h
  cases hl : load_presets fs with
  | none => rw [hl] at h; exact Except.noConfusion h
  | some presets0 =>
    rw [hl] at h
    simp only [] at h
    generalize hP :
      (if dcontains presets0 c then presets0 else dset presets0 c []) = P
      at h
    split at h
    · exact Except.noConfusion h
    · rw [Except.ok.injEq] at h
      subst h
      have h1 := dget_dset_self P c
        (dset ((dget P c).getD []) b
          (applyUpdates ((dget ((dget P c).getD []) b).getD {})
            (some mode) (some sv) (some rg) (some dc)
            (some (.list [.num x, .num y, .num z]))))
      have h2 := dget_dset_self ((dget P c).getD []) b
        (applyUpdates ((dget ((dget P c).getD []) b).getD {})
          (some mode) (some sv) (some rg) (some dc)
          (some (.list [.num x, .num y, .num z])))
      simp only [get_all_data, load_presets, dset_isEmpty_false,
        Bool.false_eq_true, if_false, h1, h2]
      rfl

/-- C1, witness for the amended round trip at a concrete input. -/
theorem save_get_all_data_round_trip_witness :
    get_all_data
        (.content [("alice", [("arm",
          { spring_mode := some "rotation", spring_value := some 1,
            spring_rigidity := some 2, decay := some 3,
            position := some (.list [.num 4, .num 5, .num 6]) })])])
        "alice" "arm" =
      some (some "rotation", some 1, some 2, some 3,
        some (.list [.tuple [.num 4, .num 5, .num 6]])) :=
  save_get_all_data_round_trip (.content []) "alice" "arm" "rotation"
    1 2 3 4 5 6 false _ rfl

/-- C1, counterexample to the claim as stated: the position is saved as the
list `[4, 5, 6]` but `get_all_data` returns it as `[(4, 5, 6)]`, a
one-element list holding a tuple — not the form in which it was saved. -/
theorem round_trip_position_form_cex :
    save_preset (.content []) "hero" "tail" (some "rotation") (some 1)
        (some 2) (some 3) (some (PyVal.list [.num 4, .num 5, .num 6])) false
      = .ok (.content [("hero", [("tail",
          { spring_mode := some "rotation", spring_value := some 1,
            spring_rigidity := some 2, decay := some 3,
            position := some (.list [.num 4, .num 5, .num 6]) })])]) ∧
    get_all_data
        (.content [("hero", [("tail",
          { spring_mode := some "rotation", spring_value := some 1,
            spring_rigidity := some 2, decay := some 3,
            position := some (.list [.num 4, .num 5, .num 6]) })])])
        "hero" "tail"
      = some (some "rotation", some 1, some 2, some 3,
          some (.list [.tuple [.num 4, .num 5, .num 6]])) ∧
    PyVal.list [.tuple [.num 4, .num 5, .num 6]]
      ≠ PyVal.list [.num 4, .num 5, .num 6] :=
  ⟨rfl, rfl, fun h => by
    rw [PyVal.list.injEq, List.cons.injEq] at h
    exact PyVal.noConfusion h.1⟩

/-- C3 (confirmed).  When `(character_name, body_part)` already exists in
the store, a second `save_preset` with the same keys and `overwrite`
left `False` raises the duplicate-name `ValueError`. -/
theorem save_duplicate_raises (fs : FileState) (c b : String)
    (m : Option String) (sv rg dc : Option ℚ) (pos : Option PyVal)
    (presets : Store) (character_data : Dict Preset)
    (hl : load_presets fs = some presets)
    (hc : dget presets c = some character_data)
    (hb : dcontains character_data b = true) :
    save_preset fs c b m sv rg dc pos false =
      .error (.valueError b c) := by
  unfold save_preset
  rw [hl]
  simp only [dcontains_true_of_dget_some presets c character_data hc,
    if_true, hc, Option.getD_some, hb, Bool.not_false, Bool.and_self,
    if_true]

/-- C3, witness: saving `("rex", "arm")` over an existing record without
`overwrite` raises. -/
theorem save_duplicate_raises_witness :
    save_preset (.content [("rex", [("arm", {})])]) "rex" "arm"
        (some "rotation") (some 1) (some 2) (some 3) none false
      = .error (.valueError "arm" "rex") :=
  save_duplicate_raises (.content [("rex", [("arm", {})])]) "rex" "arm"
    (some "rotation") (some 1) (some 2) (some 3) none
    [("rex", [("arm", {})])] [("arm", {})] rfl rfl rfl

/-- C4 (confirmed).  On an existing record, `save_preset` with
`overwrite=True` replaces exactly that record by `applyUpdates` of the old
record — each field takes the supplied value and keeps its old value when
the argument is `None` — while every other body part of the character and
every other character of the store keep their bindings. -/
theorem save_overwrite_updates_only_supplied (fs : FileState) (c b : String)
    (m : Option String) (sv rg dc : Option ℚ) (pos : Option PyVal)
    (presets : Store) (character_data : Dict Preset) (p : Preset)
    (hl : load_presets fs = some presets)
    (hc : dget presets c = some character_data)
    (hb : dget character_data b = some p) :
    save_preset fs c b m sv rg dc pos true =
      .ok (.content
        (dset presets c (dset character_data b (applyUpdates p m sv rg dc pos)))) ∧
    dget (dset presets c (dset character_data b (applyUpdates p m sv rg dc pos))) c
      = some (dset character_data b (applyUpdates p m sv rg dc pos)) ∧
    (∀ c', c' ≠ c →
      dget (dset presets c (dset character_data b (applyUpdates p m sv rg dc pos))) c'
        = dget presets c') ∧
    dget (dset character_data b (applyUpdates p m sv rg dc pos)) b
      = some (applyUpdates p m sv rg dc pos) ∧
    (∀ b', b' ≠ b →
      dget (dset character_data b (applyUpdates p m sv rg dc pos)) b'
        = dget character_data b') := by
  refine ⟨?_, dget_dset_self _ _ _,
    fun c' h => dget_dset_ne _ _ _ _ (Ne.symm h), dget_dset_self _ _ _,
    fun b' h => dget_dset_ne _ _ _ _ (Ne.symm h)⟩
  unfold save_preset
  rw [hl]
  simp only [dcontains_true_of_dget_some presets c character_data hc,
    if_true, hc, Option.getD_some, Bool.not_true, Bool.and_false,
    Bool.false_eq_true, if_false, hb, Option.getD_some]

/-- C4, witness: overwriting only the decay of `("rex", "arm")` keeps the
other fields (the record fields listed in order: spring_mode, spring_value,
spring_rigidity, decay, position), the sibling body part and the other
character unchanged. -/
theorem save_overwrite_updates_only_supplied_witness :
    save_preset
        (.content [("rex", [("arm", ⟨some "rotation", some 1, none, none,
          none⟩), ("leg", {})]), ("doe", [])])
        "rex" "arm" none none none (some 9) none true
      = .ok (.content [("rex", [("arm", ⟨some "rotation", some 1, none,
          some 9, none⟩), ("leg", {})]), ("doe", [])]) ∧
    dget ([("rex", [("arm", ⟨some "rotation", some 1, none, some 9, none⟩),
        ("leg", {})]), ("doe", [])] : Store) "doe"
      = dget ([("rex", [("arm", ⟨some "rotation", some 1, none, none,
        none⟩), ("leg", {})]), ("doe", [])] : Store) "doe" :=
  ⟨(save_overwrite_updates_only_supplied
      (.content [("rex", [("arm", ⟨some "rotation", some 1, none, none,
        none⟩), ("leg", {})]), ("doe", [])])
      "rex" "arm" none none none (some 9) none
      [("rex", [("arm", ⟨some "rotation", some 1, none, none, none⟩),
        ("leg", {})]), ("doe", [])]
      [("arm", ⟨some "rotation", some 1, none, none, none⟩), ("leg", {})]
      ⟨some "rotation", some 1, none, none, none⟩
      rfl rfl rfl).1,
   (save_overwrite_updates_only_supplied
      (.content [("rex", [("arm", ⟨some "rotation", some 1, none, none,
        none⟩), ("leg", {})]), ("doe", [])])
      "rex" "arm" none none none (some 9) none
      [("rex", [("arm", ⟨some "rotation", some 1, none, none, none⟩),
        ("leg", {})]), ("doe", [])]
      [("arm", ⟨some "rotation", some 1, none, none, none⟩), ("leg", {})]
      ⟨some "rotation", some 1, none, none, none⟩
      rfl rfl rfl).2.2.1 "doe" (by decide)⟩

/-- C5 (confirmed).  When the character or the body part is not in the
store, `remove_preset` returns `False` and leaves the file state exactly
as it was: every failure branch returns before the file write. -/
theorem remove_nonexistent_noop (fs : FileState) (c b : String)
    (h : storeHasPreset fs c b = false) :
    remove_preset fs c (some b) = (false, fs) := by
  cases fs with
  | noPath => rfl
  | missing => rfl
  | content s =>
    simp only [storeHasPreset, load_presets] at h
    cases hc : dget s c with
    | none =>
        have hcc : dcontains s c = false := by simp [dcontains, hc]
        simp [remove_preset, load_presets, hcc]
    | some character_data =>
        rw [hc] at h
        have hb : dcontains character_data b = false := h
        simp [remove_preset, load_presets,
          isEmpty_false_of_dget_some s c character_data hc,
          dcontains_true_of_dget_some s c character_data hc, hc, hb]

/-- C5, witness: removing the absent body part `"leg"` of `"rex"` is a
no-op returning `False`. -/
theorem remove_nonexistent_noop_witness :
    storeHasPreset (.content [("rex", [("arm", {})])]) "rex" "leg" = false ∧
    remove_preset (.content [("rex", [("arm", {})])]) "rex" (some "leg")
      = (false, .content [("rex", [("arm", {})])]) :=
  ⟨rfl, remove_nonexistent_noop (.content [("rex", [("arm", {})])])
    "rex" "leg" rfl⟩

/-- C6 (confirmed).  When a character holds exactly one body part, removing
that body part succeeds and also deletes the character key, leaving every
other character untouched: no character with zero body parts remains. -/
theorem remove_last_body_part_prunes_character (fs : FileState)
    (c b : String) (p : Preset) (presets : Store)
    (hl : load_presets fs = some presets)
    (hnd : keysNodup presets)
    (hc : dget presets c = some [(b, p)]) :
    remove_preset fs c (some b) = (true, .content (ddel presets c)) ∧
    dget (ddel presets c) c = none ∧
    (∀ c', c' ≠ c → dget (ddel presets c) c' = dget presets c') := by
  refine ⟨?_, dget_ddel_self presets c hnd,
    fun c' h => dget_ddel_ne presets c c' (Ne.symm h)⟩
  unfold remove_preset
  rw [hl]
  simp [isEmpty_false_of_dget_some presets c _ hc,
    dcontains_true_of_dget_some presets c _ hc, hc, dcontains, dget, ddel]

/-- C6, witness: removing the only body part of `"solo"` deletes the
`"solo"` key itself while `"rex"` keeps its binding. -/
theorem remove_last_body_part_prunes_character_witness :
    remove_preset (.content [("solo", [("tail", {})]), ("rex", [])])
        "solo" (some "tail")
      = (true, .content [("rex", [])]) ∧
    dget ([("rex", [])] : Store) "solo" = none :=
  ⟨(remove_last_body_part_prunes_character
      (.content [("solo", [("tail", {})]), ("rex", [])]) "solo" "tail" {}
      [("solo", [("tail", {})]), ("rex", [])] rfl (by decide) rfl).1,
   (remove_last_body_part_prunes_character
      (.content [("solo", [("tail", {})]), ("rex", [])]) "solo" "tail" {}
      [("solo", [("tail", {})]), ("rex", [])] rfl (by decide) rfl).2.1⟩

/-- C7, counterexample to the claim as stated: `rename_key` on an absent
`old_key` returns the mapping unchanged — its only outcome is the returned
mapping, so no failure is reported — and `save_preset` with
`overwrite=True` on an absent body part returns successfully instead of
reporting the absence. -/
theorem absent_key_silent_cex :
    rename_key [("hero", [("arm", {})])] "ghost" "limb" none
      = [("hero", [("arm", {})])] ∧
    (save_preset (.content []) "hero" "ghost" (some "rotation") (some 1)
        (some 1) (some 1) (some (.list [.num 0, .num 0, .num 0]))
        true).isOk = true :=
  ⟨rfl, rfl⟩

/-- C7 (corrected).  A non-overwrite save on a present key does signal
(C3); but an edit/rename whose target key is absent signals nothing:
`rename_key` on an absent `old_key` silently returns the mapping
unchanged, and `save_preset` with `overwrite=True` on an absent body part
silently creates the record and succeeds. -/
theorem absent_key_silent_behavior (d : Store) (old_key new_key : String)
    (fs : FileState) (c b : String) (m : Option String) (sv rg dc : Option ℚ)
    (pos : Option PyVal) (presets : Store)
    (h1 : dget d old_key = none)
    (hl : load_presets fs = some presets)
    (hb : storeHasPreset fs c b = false) :
    rename_key d old_key new_key none = d ∧
    ∃ fs1, save_preset fs c b m sv rg dc pos true = .ok fs1 ∧
      storeHasPreset fs1 c b = true := by
  constructor
  · unfold rename_key renameFlat
    rw [h1]
  · unfold save_preset
    rw [hl]
    simp only []
    generalize (if dcontains presets c then presets else dset presets c []) = P
    refine ⟨.content (dset P c (dset ((dget P c).getD []) b
      (applyUpdates ((dget ((dget P c).getD []) b).getD {}) m sv rg dc pos))),
      ?_, ?_⟩
    · simp
    · simp [storeHasPreset, load_presets, dget_dset_self, dcontains]

/-- C7, witness for the amended claim at concrete inputs. -/
theorem absent_key_silent_behavior_witness :
    rename_key [("hero", [("arm", {})])] "ghost" "limb" none
      = [("hero", [("arm", {})])] ∧
    ∃ fs1, save_preset (.content [("hero", [("arm", {})])]) "hero" "cape"
        none none none none none true = .ok fs1 ∧
      storeHasPreset fs1 "hero" "cape" = true :=
  absent_key_silent_behavior [("hero", [("arm", {})])] "ghost" "limb"
    (.content [("hero", [("arm", {})])]) "hero" "cape" none none none none
    none [("hero", [("arm", {})])] rfl rfl rfl

/-- C8 (confirmed).  Creation is guarded case-insensitively: when the
character already has a body part whose lowercased name equals the
lowercased requested name, pressing save in the popup outside edit mode
warns that the name is taken and leaves the file untouched — the
case-insensitive uniqueness invariant within a character is preserved at
creation time. -/
theorem case_insensitive_unique_on_creation (fs : FileState)
    (c b existing : String) (presets : Store) (character_data : Dict Preset)
    (rotation_checked : Bool) (sv rg dc px py pz : ℚ)
    (hl : load_presets fs = some presets)
    (hc : dget presets c = some character_data)
    (hmem : existing ∈ dkeys character_data)
    (hcase : strLower existing = strLower b)
    (hne : c ≠ EMPTY_LINE_TEXT) :
    save_preset_pressed fs c b false rotation_checked sv rg dc px py pz
      = (.warnNameTaken, fs) := by
  have hav : get_available_body_parts fs c = some (dkeys character_data) := by
    simp only [get_available_body_parts, hl,
      isEmpty_false_of_dget_some presets c character_data hc,
      Bool.false_eq_true, if_false, hc, Option.getD_some]
  have hmem2 : strLower b ∈ (dkeys character_data).map strLower :=
    hcase ▸ List.mem_map_of_mem strLower hmem
  have hcont :
      ((dkeys character_data).map strLower).contains (strLower b)
        = true := by
    exact List.elem_iff.mpr hmem2
  have hnonempty : (dkeys character_data).isEmpty = false := by
    cases hk : dkeys character_data
    · rw [hk] at hmem; cases hmem
    · rfl
  simp only [save_preset_pressed, if_neg hne, hav, hnonempty, hcont,
    Bool.not_false, Bool.and_true, Bool.true_and, Bool.and_self, if_true]

/-- C8, witness: `"aRm"` only differs from the saved `"Arm"` in case, so
the popup refuses the save and the store is unchanged. -/
theorem case_insensitive_unique_on_creation_witness :
    save_preset_pressed (.content [("rex", [("Arm", {})])]) "rex" "aRm"
        false true 1 2 3 4 5 6
      = (.warnNameTaken, .content [("rex", [("Arm", {})])]) :=
  case_insensitive_unique_on_creation (.content [("rex", [("Arm", {})])])
    "rex" "aRm" "Arm" [("rex", [("Arm", {})])] [("Arm", {})] true 1 2 3 4 5 6
    rfl rfl (by decide) (by decide) (by decide)

/-- C9 (confirmed, for distinct keys in a well-formed dict).  `rename_key`
maps `new_key` to exactly the value previously held by `old_key` and
removes `old_key`, at the addressed nesting level only: at the top level
when `parent_text` is `None`, the other top-level keys keep their
bindings; under `parent_text` otherwise, the other body-part keys and all
other top-level keys keep their bindings. -/
theorem rename_key_moves_value (d : Store) (old_key new_key : String)
    (hne : old_key ≠ new_key) :
    (∀ v, dget d old_key = some v → keysNodup d →
      dget (rename_key d old_key new_key none) new_key = some v ∧
      dget (rename_key d old_key new_key none) old_key = none ∧
      ∀ k, k ≠ old_key → k ≠ new_key →
        dget (rename_key d old_key new_key none) k = dget d k) ∧
    (∀ parent inner v, dget d parent = some inner →
      dget inner old_key = some v → keysNodup inner →
      dget (rename_key d old_key new_key (some parent)) parent
          = some (renameFlat inner old_key new_key) ∧
      dget (renameFlat inner old_key new_key) new_key = some v ∧
      dget (renameFlat inner old_key new_key) old_key = none ∧
      (∀ k, k ≠ old_key → k ≠ new_key →
        dget (renameFlat inner old_key new_key) k = dget inner k) ∧
      ∀ q, q ≠ parent →
        dget (rename_key d old_key new_key (some parent)) q = dget d q) := by
  constructor
  · intro v hv hnd
    exact renameFlat_spec d old_key new_key v hne hv hnd
  · intro parent inner v hp hv hnd
    have hrw : rename_key d old_key new_key (some parent)
        = dset d parent (renameFlat inner old_key new_key) := by
      simp [rename_key, hp, dcontains, hv]
    obtain ⟨h1, h2, h3⟩ := renameFlat_spec inner old_key new_key v hne hv hnd
    exact ⟨hrw ▸ dget_dset_self d parent _, h1, h2, h3,
      fun q hq => hrw ▸ dget_dset_ne d parent q _ (Ne.symm hq)⟩

/-- C9, witness: renaming at both levels on concrete stores. -/
theorem rename_key_moves_value_witness :
    dget (rename_key [("ann", [("arm", {})]), ("bob", [])] "ann" "cat" none)
        "cat" = some [("arm", {})] ∧
    dget (rename_key [("ann", [("arm", {})]), ("bob", [])] "ann" "cat" none)
        "ann" = none ∧
    dget (rename_key [("ann", [("arm", {})]), ("bob", [])] "arm" "leg"
        (some "ann")) "ann" = some (renameFlat [("arm", {})] "arm" "leg") :=
  ⟨((rename_key_moves_value [("ann", [("arm", {})]), ("bob", [])] "ann" "cat"
      (by decide)).1 [("arm", {})] rfl (by decide)).1,
   ((rename_key_moves_value [("ann", [("arm", {})]), ("bob", [])] "ann" "cat"
      (by decide)).1 [("arm", {})] rfl (by decide)).2.1,
   ((rename_key_moves_value [("ann", [("arm", {})]), ("bob", [])] "arm" "leg"
      (by decide)).2 "ann" [("arm", {})] {} rfl rfl (by decide)).1⟩

/-- C10 (confirmed).  When both `old_key` and `new_key` already exist at
the addressed level, `rename_key` silently rebinds `new_key` to the value
previously held by `old_key`; the value previously under `new_key` is
overwritten and the total function returns a store, producing no error or
collision signal. -/
theorem rename_key_overwrites_existing_target (d : Store)
    (old_key new_key : String) (hne : old_key ≠ new_key) :
    (∀ vOld vNew, dget d old_key = some vOld → dget d new_key = some vNew →
      keysNodup d →
      dget (rename_key d old_key new_key none) new_key = some vOld) ∧
    (∀ parent inner vOld vNew, dget d parent = some inner →
      dget inner old_key = some vOld → dget inner new_key = some vNew →
      keysNodup inner →
      dget (rename_key d old_key new_key (some parent)) parent
        = some (renameFlat inner old_key new_key) ∧
      dget (renameFlat inner old_key new_key) new_key = some vOld) := by
  constructor
  · intro vOld vNew hOld hNew hnd
    exact (renameFlat_spec d old_key new_key vOld hne hOld hnd).1
  · intro parent inner vOld vNew hp hOld hNew hnd
    have hrw : rename_key d old_key new_key (some parent)
        = dset d parent (renameFlat inner old_key new_key) := by
      simp [rename_key, hp, dcontains, hOld]
    exact ⟨hrw ▸ dget_dset_self d parent _,
      (renameFlat_spec inner old_key new_key vOld hne hOld hnd).1⟩

/-- C10, witness: `"bob"` already exists, renaming `"ann"` to `"bob"`
rebinds `"bob"` to `"ann"`'s one-body-part dict, losing the empty dict
that was there. -/
theorem rename_key_overwrites_existing_target_witness :
    dget (rename_key [("ann", [("arm", {})]), ("bob", [])] "ann" "bob" none)
        "bob" = some [("arm", {})] :=
  (rename_key_overwrites_existing_target
    [("ann", [("arm", {})]), ("bob", [])] "ann" "bob" (by decide)).1
    [("arm", {})] [] rfl rfl (by decide)

end SpringTool
